import Mathlib

/-!
Verification development for the Green Hill Canarias agent-orchestration
state machine (`app/ghc_twin.py`, `app/agents.py`, `app/document_store.py`).

The shallow embedding below translates the routing / classification /
finalization logic of the source into executable Lean definitions:

* `AgentName` mirrors the agent identifiers referenced by `app/agents.py`
  and `app/ghc_twin.py` (the enum in `app/models.py` lists only the eight
  analytical members; the extra members `market_intel`, `media`, `qms`,
  `governance`, `aemps` are referenced throughout `app/agents.py` and
  `app/ghc_twin.py` and are modelled here with their obvious string values).
* `TwinState` mirrors the fields of `app.models.TwinState` that the
  orchestration logic reads or writes.
* External collaborators (vector store, LLM calls, audit log files, the
  `ARCHIVE_AGENT_OUTPUTS` environment flag) are modelled as an explicit
  `Env` of behaviours; `try/except` blocks of the source become matches on
  `Except` results.
* The LangGraph wiring of `build_graph` becomes the fuel-indexed `loop`
  over the conditional `router`, with `START → intake → digital_twin`
  prefixed in `fullRun`.
-/

/-- Agent identifiers (`AgentName` in `app/models.py`, extended by the
members that `app/agents.py` / `app/ghc_twin.py` reference). -/
inductive AgentName where
  | strategy
  | operations
  | finance
  | market
  | market_intel
  | risk
  | compliance
  | innovation
  | media
  | qms
  | governance
  | aemps
  | green_hill
deriving DecidableEq, Repr

/-- The `.value` string of each enum member (`app/models.py`; values for the
five members missing from `app/models.py` are chosen in the obvious way —
no claim depends on them). -/
def agentValue : AgentName → String
  | AgentName.strategy => "Strategy"
  | AgentName.operations => "Operations"
  | AgentName.finance => "Finance"
  | AgentName.market => "Market"
  | AgentName.market_intel => "MarketIntel"
  | AgentName.risk => "Risk"
  | AgentName.compliance => "Compliance"
  | AgentName.innovation => "Innovation"
  | AgentName.media => "Media"
  | AgentName.qms => "QMS"
  | AgentName.governance => "Governance"
  | AgentName.aemps => "AEMPS"
  | AgentName.green_hill => "GreenHillGPT"

/-- Python `str.lower()`, character-wise (the identifiers it is applied to
are ASCII). -/
def lowerStr (s : String) : String :=
  String.mk (s.data.map Char.toLower)

/-- Helper for `pySplit`: scan the character list, splitting at each
leftmost non-overlapping occurrence of `sep`; `fuel` is a structural bound
(any value above the list length is exact). -/
def pySplitGo (sep : List Char) : Nat → List Char → List Char → List (List Char)
  | 0, l, acc => [acc.reverse ++ l]
  | Nat.succ fuel, l, acc =>
    match l with
    | [] => [acc.reverse]
    | c :: rest =>
      if sep.isPrefixOf l then acc.reverse :: pySplitGo sep fuel (l.drop sep.length) []
      else pySplitGo sep fuel rest (c :: acc)

/-- Python `str.split(sep)` with an explicit separator: keeps empty pieces,
`[""]` on the empty string (the source applies it via `ctx.split("\n\n")`). -/
def pySplit (s sep : String) : List String :=
  if sep = "" then [s]
  else (pySplitGo sep.data (s.data.length + 1) s.data []).map String.mk

/-- Graph node names registered by `build_graph` in `app/ghc_twin.py`
(the twelve agent nodes; `market` serves both `MARKET` and `MARKET_INTEL`). -/
inductive NodeName where
  | strategy
  | finance
  | operations
  | market
  | risk
  | compliance
  | innovation
  | media
  | qms
  | governance
  | aemps
  | green_hill
deriving DecidableEq, Repr

/-- A history entry (`Message` in `app/models.py`). -/
structure Message where
  role : String
  content : String
deriving DecidableEq, Repr

/-- The metadata keys the orchestration logic reads (`metadata` is an open
dict in the source; only these keys are consulted by `classify_request`
and `finalize_node`). -/
structure MetaData where
  domain : Option String := none
  subdomain : Option String := none
  decision : Option String := none
  capa_issue : Option String := none
deriving DecidableEq, Repr

/-- Output record written by `strategy_node` (`app/agents.py`). -/
structure StrategyOutput where
  strategic_focus : String
  timeline : String
  key_initiatives : List String
  analysis : String
  context_used : Nat
deriving DecidableEq, Repr

/-- Output record written by `operations_node`. -/
structure OperationsOutput where
  implementation_schedule : String
  resource_allocation : String
  operational_framework : String
  analysis : String
  context_used : Nat
deriving DecidableEq, Repr

/-- Output record written by `finance_node`. -/
structure FinanceOutput where
  roi_projection : String
  capex_estimate : Nat
  funding_strategy : String
  analysis : String
  context_used : Nat
deriving DecidableEq, Repr

/-- Output record written by `market_intel_node`. -/
structure MarketOutput where
  market_opportunity : String
  growth_projection : String
  competitive_landscape : String
  analysis : String
  context_used : Nat
deriving DecidableEq, Repr

/-- Output record written by `risk_node`. -/
structure RiskOutput where
  risk_assessment : String
  primary_risks : List String
  mitigations : List String
  analysis : String
  context_used : Nat
deriving DecidableEq, Repr

/-- Output record written by `compliance_node`. -/
structure ComplianceOutput where
  regulatory_framework : String
  timeline : String
  actions : List String
  analysis : String
  context_used : Nat
deriving DecidableEq, Repr

/-- Output record written by `innovation_node`. -/
structure InnovationOutput where
  innovation_roadmap : String
  initiatives : List String
  analysis : String
  context_used : Nat
deriving DecidableEq, Repr

/-- Output record written by `media_node`. -/
structure MediaOutput where
  asset_pipeline : String
  analysis : String
  context_used : Nat
deriving DecidableEq, Repr

/-- Output record written by `qms_node`. -/
structure QmsOutput where
  audit_focus : String
  analysis : String
  context_used : Nat
deriving DecidableEq, Repr

/-- Output record written by `governance_node`. -/
structure GovernanceOutput where
  policy_considerations : String
  analysis : String
  context_used : Nat
deriving DecidableEq, Repr

/-- Output record written by `aemps_node`. -/
structure AempsOutput where
  readiness_level : String
  analysis : String
  context_used : Nat
deriving DecidableEq, Repr

/-- Output record written by `green_hill_node` (`green_hill_response`). -/
structure GreenHillResponse where
  memo : String
deriving DecidableEq, Repr

/-- The orchestration-relevant fields of `app.models.TwinState`.
`context_retrieved` models `state.context["retrieved_docs"]` (`none` when
the key was never written). -/
structure TwinState where
  source_type : String := "public"
  question : Option String := none
  payload_ref : Option String := none
  metadata : MetaData := {}
  context_retrieved : Option (List String) := none
  history : List Message := []
  strategy_output : Option StrategyOutput := none
  operations_output : Option OperationsOutput := none
  finance_output : Option FinanceOutput := none
  market_output : Option MarketOutput := none
  risk_output : Option RiskOutput := none
  compliance_output : Option ComplianceOutput := none
  innovation_output : Option InnovationOutput := none
  media_output : Option MediaOutput := none
  qms_output : Option QmsOutput := none
  governance_output : Option GovernanceOutput := none
  aemps_output : Option AempsOutput := none
  green_hill_response : Option GreenHillResponse := none
  current_agent : Option AgentName := none
  next_agent : Option AgentName := none
  finalize : Bool := false
  final_answer : Option String := none
  errors : List String := []
  target_agent : Option AgentName := none
  target_agents : List AgentName := []
deriving DecidableEq, Repr

/-- Behaviour of the Chroma-backed `DocumentStore` (`app/document_store.py`):
`available` is `is_available()` (whether `vectordb` loaded); `search` is the
behaviour of `vectordb.similarity_search(text, k)` — either the list of
document contents or a raised exception message. -/
structure DocStoreB where
  available : Bool
  search : String → Nat → Except String (List String)

/-- Behaviours of all external collaborators of the core:
the document store, the two LLM call sites, the audit-log file writes of
`finalize_node`, the `doc_store.add_agent_outputs` archive call, and the
`ARCHIVE_AGENT_OUTPUTS` environment variable. -/
structure Env where
  ds : DocStoreB
  llm : String → String → Except String String
  ghLlm : TwinState → Except String String
  audit : Except String Unit
  archive : Except String Unit
  archiveFlagSetting : String := "1"

/-- External world effects produced by `finalize_node` side effects
(decision register, CAPA log, archive upsert). -/
structure World where
  decisions : List String := []
  capas : List String := []
  archived : Bool := false
deriving DecidableEq, Repr

/-- `DocumentStore.query` (`app/document_store.py` lines 67–74). -/
def DocumentStore.query (ds : DocStoreB) (text : String) (k : Nat) : String :=
  if !ds.available then "No vector store available"
  else
    match ds.search text k with
    | Except.ok docs => String.intercalate ("\n\n") docs
    | Except.error e => "Vector store query failed: " ++ e

/-- `enhance_with_llm` (`app/agents.py` lines 35–60): LLM call with a
graceful deterministic fallback. -/
def enhance_with_llm (env : Env) (prompt : String) (context : String) : String :=
  match env.llm prompt context with
  | Except.ok resp => resp
  | Except.error _ =>
      "Baseline analysis (LLM unavailable): " ++ prompt ++ "\n\nContext: "
        ++ context.take 300 ++ "..."

/-- Alias normalization inside `_next_from_targets` (`app/agents.py` line 22):
the legacy `MARKET_INTEL` identifier collapses to `MARKET`. -/
def normalizeAgent (a : AgentName) : AgentName :=
  if a = AgentName.market_intel then AgentName.market else a

/-- `_next_from_targets` (`app/agents.py` lines 16–33): find the first
occurrence of the (normalized) current agent in the normalized target list
and return the original entry after it; `None` when the list is empty, the
current agent is absent (the `ValueError` branch), or it is last. -/
def nextFromTargets (st : TwinState) (current : AgentName) : Option AgentName :=
  if st.target_agents.isEmpty then none
  else
    let normalized_targets := st.target_agents.map normalizeAgent
    let current_norm := normalizeAgent current
    if normalized_targets.contains current_norm then
      let idx := normalized_targets.indexOf current_norm
      if idx + 1 < st.target_agents.length then st.target_agents[idx + 1]?
      else none
    else none

/-- `record_output` (`app/agents.py` lines 8–13), minus the dynamic
`setattr` (each caller passes its own field update). -/
def record_output (st : TwinState) (agent : AgentName)
    (setOut : TwinState → TwinState) (note : String) : TwinState :=
  let st := { st with history := st.history ++ [{ role := agentValue agent, content := note }] }
  let st := setOut st
  { st with current_agent := some agent }

/-- Number of context chunks: `len((ctx or "").split("\n\n"))` as in every
agent node of `app/agents.py`. -/
def contextUsedOf (ctx : String) : Nat :=
  (pySplit (if ctx.isEmpty then ("" : String) else ctx) ("\n\n")).length

/-- `strategy_node` (`app/agents.py` lines 62–80). -/
def strategy_node (env : Env) (st : TwinState) : TwinState :=
  let q := st.question.getD ("")
  let ctx := DocumentStore.query env.ds ("strategy planning vision " ++ q) 5
  let analysis := enhance_with_llm env ("Strategic opportunities and positioning for: " ++ q) ctx
  let output : StrategyOutput :=
    { strategic_focus := "EU-GMP compliance with ROI optimization"
      timeline := "~9 months"
      key_initiatives := ["Regulatory alignment", "Atlantic market positioning", "Partnership development"]
      analysis := analysis
      context_used := contextUsedOf ctx }
  let st := record_output st AgentName.strategy
      (fun s => { s with strategy_output := some output }) ("Strategic analysis completed")
  { st with next_agent := nextFromTargets st AgentName.strategy }

/-- `operations_node` (`app/agents.py` lines 82–95). -/
def operations_node (env : Env) (st : TwinState) : TwinState :=
  let q := st.question.getD ("")
  let ctx := DocumentStore.query env.ds ("operations processes efficiency " ++ q) 5
  let analysis := enhance_with_llm env ("Operational requirements and optimization for: " ++ q) ctx
  let output : OperationsOutput :=
    { implementation_schedule := "Phased T0→T+9"
      resource_allocation := "Cross-functional core team"
      operational_framework := "Agile with quarterly reviews"
      analysis := analysis
      context_used := contextUsedOf ctx }
  let st := record_output st AgentName.operations
      (fun s => { s with operations_output := some output }) ("Operations planning completed")
  { st with next_agent := nextFromTargets st AgentName.operations }

/-- `finance_node` (`app/agents.py` lines 97–110). -/
def finance_node (env : Env) (st : TwinState) : TwinState :=
  let q := st.question.getD ("")
  let ctx := DocumentStore.query env.ds ("finance investment funding " ++ q) 5
  let analysis := enhance_with_llm env ("Financial implications and investment opportunities for: " ++ q) ctx
  let output : FinanceOutput :=
    { roi_projection := "~24%"
      capex_estimate := 3200000
      funding_strategy := "Mixed equity + partnerships"
      analysis := analysis
      context_used := contextUsedOf ctx }
  let st := record_output st AgentName.finance
      (fun s => { s with finance_output := some output }) ("Financial modeling completed")
  { st with next_agent := nextFromTargets st AgentName.finance }

/-- `market_intel_node` (`app/agents.py` lines 112–125); registered as the
`market` graph node and records `AgentName.MARKET`. -/
def market_intel_node (env : Env) (st : TwinState) : TwinState :=
  let q := st.question.getD ("")
  let ctx := DocumentStore.query env.ds ("market competition Canary Islands " ++ q) 5
  let analysis := enhance_with_llm env ("Market opportunities and competitive landscape for: " ++ q) ctx
  let output : MarketOutput :=
    { market_opportunity := "Atlantic corridor with EU connectivity"
      growth_projection := "~12% CAGR"
      competitive_landscape := "Emerging, first-mover advantage possible"
      analysis := analysis
      context_used := contextUsedOf ctx }
  let st := record_output st AgentName.market
      (fun s => { s with market_output := some output }) ("Market intelligence gathered")
  { st with next_agent := nextFromTargets st AgentName.market }

/-- `risk_node` (`app/agents.py` lines 127–140). -/
def risk_node (env : Env) (st : TwinState) : TwinState :=
  let q := st.question.getD ("")
  let ctx := DocumentStore.query env.ds ("risk assessment mitigation " ++ q) 5
  let analysis := enhance_with_llm env ("Risks and mitigation strategies for: " ++ q) ctx
  let output : RiskOutput :=
    { risk_assessment := "Medium, mitigable"
      primary_risks := ["Regulatory changes", "Market volatility", "Delays"]
      mitigations := ["Proactive monitoring", "Diversified approach", "Agile PM"]
      analysis := analysis
      context_used := contextUsedOf ctx }
  let st := record_output st AgentName.risk
      (fun s => { s with risk_output := some output }) ("Risk analysis completed")
  { st with next_agent := nextFromTargets st AgentName.risk }

/-- `compliance_node` (`app/agents.py` lines 142–155). -/
def compliance_node (env : Env) (st : TwinState) : TwinState :=
  let q := st.question.getD ("")
  let ctx := DocumentStore.query env.ds ("EU-GMP compliance Spain Canary Islands " ++ q) 5
  let analysis := enhance_with_llm env ("Compliance and regulatory requirements for: " ++ q) ctx
  let output : ComplianceOutput :=
    { regulatory_framework := "EU-GMP + Spanish requirements"
      timeline := "~6 months for certification"
      actions := ["SOPs update", "Internal audit", "Submission prep"]
      analysis := analysis
      context_used := contextUsedOf ctx }
  let st := record_output st AgentName.compliance
      (fun s => { s with compliance_output := some output }) ("Compliance framework outlined")
  { st with next_agent := nextFromTargets st AgentName.compliance }

/-- `innovation_node` (`app/agents.py` lines 157–169). -/
def innovation_node (env : Env) (st : TwinState) : TwinState :=
  let q := st.question.getD ("")
  let ctx := DocumentStore.query env.ds ("innovation technology digital transformation " ++ q) 5
  let analysis := enhance_with_llm env ("Innovation opportunities and technology applications for: " ++ q) ctx
  let output : InnovationOutput :=
    { innovation_roadmap := "Technology-driven sustainability"
      initiatives := ["AI optimization", "Sustainable tech", "Digital acceleration"]
      analysis := analysis
      context_used := contextUsedOf ctx }
  let st := record_output st AgentName.innovation
      (fun s => { s with innovation_output := some output }) ("Innovation roadmap prepared")
  { st with next_agent := nextFromTargets st AgentName.innovation }

/-- `media_node` (`app/agents.py` lines 172–183). -/
def media_node (env : Env) (st : TwinState) : TwinState :=
  let q := st.question.getD ("")
  let ctx := DocumentStore.query env.ds ("media assets branding " ++ q) 5
  let analysis := enhance_with_llm env ("Media strategy and asset guidance for: " ++ q) ctx
  let output : MediaOutput :=
    { asset_pipeline := "Placeholder"
      analysis := analysis
      context_used := contextUsedOf ctx }
  let st := record_output st AgentName.media
      (fun s => { s with media_output := some output }) ("Media guidance completed")
  { st with next_agent := nextFromTargets st AgentName.media }

/-- `qms_node` (`app/agents.py` lines 186–197). -/
def qms_node (env : Env) (st : TwinState) : TwinState :=
  let q := st.question.getD ("")
  let ctx := DocumentStore.query env.ds ("quality management system " ++ q) 5
  let analysis := enhance_with_llm env ("QMS and SOP alignment for: " ++ q) ctx
  let output : QmsOutput :=
    { audit_focus := "Placeholder"
      analysis := analysis
      context_used := contextUsedOf ctx }
  let st := record_output st AgentName.qms
      (fun s => { s with qms_output := some output }) ("QMS review completed")
  { st with next_agent := nextFromTargets st AgentName.qms }

/-- `governance_node` (`app/agents.py` lines 200–211). -/
def governance_node (env : Env) (st : TwinState) : TwinState :=
  let q := st.question.getD ("")
  let ctx := DocumentStore.query env.ds ("governance decision policy " ++ q) 5
  let analysis := enhance_with_llm env ("Governance alignment for: " ++ q) ctx
  let output : GovernanceOutput :=
    { policy_considerations := "Placeholder"
      analysis := analysis
      context_used := contextUsedOf ctx }
  let st := record_output st AgentName.governance
      (fun s => { s with governance_output := some output }) ("Governance review completed")
  { st with next_agent := nextFromTargets st AgentName.governance }

/-- `aemps_node` (`app/agents.py` lines 214–225). -/
def aemps_node (env : Env) (st : TwinState) : TwinState :=
  let q := st.question.getD ("")
  let ctx := DocumentStore.query env.ds ("AEMPS EU-GMP " ++ q) 5
  let analysis := enhance_with_llm env ("AEMPS readiness assessment for: " ++ q) ctx
  let output : AempsOutput :=
    { readiness_level := "Placeholder"
      analysis := analysis
      context_used := contextUsedOf ctx }
  let st := record_output st AgentName.aemps
      (fun s => { s with aemps_output := some output }) ("AEMPS readiness assessed")
  { st with next_agent := nextFromTargets st AgentName.aemps }

/-- `green_hill_node` (`app/agents.py` lines 305–365): synthesizes the
investor memo, queues no further agent, and finalizes in place.  The
source's fallback indexes `initiatives[0]`; every writer of `initiatives`
supplies a non-empty list, and `headD` keeps the embedding total on the
(unreachable through the graph) empty case. -/
def green_hill_node (env : Env) (st : TwinState) : TwinState :=
  let fin : Option FinanceOutput := st.finance_output
  let rsk : Option RiskOutput := st.risk_output
  let inn : Option InnovationOutput := st.innovation_output
  let content : String :=
    match env.ghLlm st with
    | Except.ok r => r
    | Except.error _ =>
        "Investor memo (LLM unavailable):\n- Summary: Multi-agent analysis complete.\n- Key ROI: "
          ++ ((fin.map FinanceOutput.roi_projection).getD ("N/A")) ++ " | CAPEX: "
          ++ ((fin.map (fun o => toString o.capex_estimate)).getD ("N/A")) ++ "\n- Risks: "
          ++ (let r := String.intercalate (", ") ((rsk.map RiskOutput.primary_risks).getD []);
              if r.isEmpty then "N/A" else r) ++ "\n- Next: "
          ++ (match inn with
              | none => "Prioritize planning"
              | some o => o.initiatives.headD ("")) ++ "\n"
  let st := { st with
    green_hill_response := some ({ memo := content } : GreenHillResponse)
    history := st.history ++ [({ role := "GreenHillGPT", content := "Investor memo prepared" } : Message)]
    next_agent := none }
  let st := if (st.final_answer.getD ("")).isEmpty then { st with final_answer := some content } else st
  { st with finalize := true }

/-- The summary block `parts` built by `finalize_node`
(`app/agents.py` lines 242–254): one line per agent, with per-key
`dict.get` defaults applied to a possibly absent output record. -/
def ghParts (st : TwinState) : List String :=
  [ "🎯 Strategy (" ++ ((st.strategy_output.map (fun o => toString o.context_used)).getD ("0"))
      ++ " ctx): " ++ ((st.strategy_output.map (fun o => o.strategic_focus)).getD ("N/A"))
      ++ " | " ++ ((st.strategy_output.map (fun o => o.timeline)).getD (""))
  , "💰 Finance (" ++ ((st.finance_output.map (fun o => toString o.context_used)).getD ("0"))
      ++ " ctx): ROI " ++ ((st.finance_output.map (fun o => o.roi_projection)).getD ("N/A"))
      ++ " | CAPEX " ++ ((st.finance_output.map (fun o => toString o.capex_estimate)).getD ("N/A"))
  , "⚙️ Operations (" ++ ((st.operations_output.map (fun o => toString o.context_used)).getD ("0"))
      ++ " ctx): " ++ ((st.operations_output.map (fun o => o.implementation_schedule)).getD ("N/A"))
  , "📊 Market (" ++ ((st.market_output.map (fun o => toString o.context_used)).getD ("0"))
      ++ " ctx): " ++ ((st.market_output.map (fun o => o.growth_projection)).getD ("N/A"))
      ++ " | " ++ ((st.market_output.map (fun o => o.market_opportunity)).getD ("N/A"))
  , "⚠️ Risk (" ++ ((st.risk_output.map (fun o => toString o.context_used)).getD ("0"))
      ++ " ctx): " ++ ((st.risk_output.map (fun o => o.risk_assessment)).getD ("N/A"))
  , "📋 Compliance (" ++ ((st.compliance_output.map (fun o => toString o.context_used)).getD ("0"))
      ++ " ctx): " ++ ((st.compliance_output.map (fun o => o.timeline)).getD ("N/A"))
      ++ " | " ++ ((st.compliance_output.map (fun o => o.regulatory_framework)).getD ("N/A"))
  , "💡 Innovation (" ++ ((st.innovation_output.map (fun o => toString o.context_used)).getD ("0"))
      ++ " ctx): roadmap with "
      ++ toString ((st.innovation_output.map (fun o => o.initiatives)).getD []).length
      ++ " initiatives"
  , "🎥 Media (" ++ ((st.media_output.map (fun o => toString o.context_used)).getD ("0"))
      ++ " ctx): " ++ ((st.media_output.map (fun o => o.asset_pipeline)).getD ("N/A"))
  , "🧪 QMS (" ++ ((st.qms_output.map (fun o => toString o.context_used)).getD ("0"))
      ++ " ctx): " ++ ((st.qms_output.map (fun o => o.audit_focus)).getD ("N/A"))
  , "🧭 Governance (" ++ ((st.governance_output.map (fun o => toString o.context_used)).getD ("0"))
      ++ " ctx): " ++ ((st.governance_output.map (fun o => o.policy_considerations)).getD ("N/A"))
  , "🏛️ AEMPS (" ++ ((st.aemps_output.map (fun o => toString o.context_used)).getD ("0"))
      ++ " ctx): " ++ ((st.aemps_output.map (fun o => o.readiness_level)).getD ("N/A")) ]

/-- The composite final answer of `finalize_node` (`app/agents.py`
lines 256–260); `question or "(no question)"` handles the falsy cases. -/
def ghAnswer (st : TwinState) : String :=
  let q := if (st.question.getD ("")).isEmpty then "(no question)" else st.question.getD ("")
  "# Green Hill Canarias Digital Twin\n\nQuestion: " ++ q ++ "\n\nSummary:\n- "
    ++ String.intercalate ("\n- ") (ghParts st)

/-- Whether `ARCHIVE_AGENT_OUTPUTS` enables archiving
(`os.getenv("ARCHIVE_AGENT_OUTPUTS", "1").lower() in {"1", "true", "yes"}`). -/
def archiveEnabledOf (env : Env) : Bool :=
  ["1", "true", "yes"].contains (lowerStr env.archiveFlagSetting)

/-- `finalize_node` (`app/agents.py` lines 227–302) with its external world
effects made explicit.  The state mutations happen before the two guarded
side-effect blocks; a raised exception in the audit block (`except
Exception: pass`) or the archive block only suppresses external writes. -/
def finalize_nodeW (env : Env) (st : TwinState) : TwinState × World :=
  let st := { st with
    final_answer := some (ghAnswer st)
    finalize := true
    history := st.history ++ [{ role := "System", content := "Final synthesis completed" }] }
  let w1 : World :=
    match env.audit with
    | Except.ok _ =>
        let w : World :=
          if (st.metadata.decision.getD ("")).isEmpty then {}
          else { decisions := [st.metadata.decision.getD ("")] }
        if (st.metadata.capa_issue.getD ("")).isEmpty then w
        else { w with capas := [st.metadata.capa_issue.getD ("")] }
    | Except.error _ => {}
  let w2 : World :=
    if archiveEnabledOf env then
      match env.archive with
      | Except.ok _ => { w1 with archived := true }
      | Except.error _ => w1
    else w1
  (st, w2)

/-- The state component of `finalize_node`, as used by the graph. -/
def finalize_node (env : Env) (st : TwinState) : TwinState :=
  (finalize_nodeW env st).1

/-- Lower-cased effective source type: `(state.source_type or "public").lower()`. -/
def sourceTypeLower (st : TwinState) : String :=
  lowerStr (if st.source_type.isEmpty then "public" else st.source_type)

/-- `classify_request` (`app/ghc_twin.py` lines 24–69): domain/subdomain
fast paths first, then the fixed role table on `source_type`. -/
def classify_request (st : TwinState) : List AgentName :=
  let dom := lowerStr (st.metadata.domain.getD (""))
  let sub := lowerStr (st.metadata.subdomain.getD (""))
  if dom = "media" then [AgentName.media]
  else if dom = "governance" ∨ dom = "sha_canonical" then [AgentName.governance]
  else if dom = "compliance" ∧ (sub = "qms playbook" ∨ sub = "sop index") then [AgentName.qms]
  else if dom = "compliance" ∧ sub = "aemps assessment application" then [AgentName.aemps]
  else if dom = "strategic_plan" ∧ sub = "regulatory" then [AgentName.aemps]
  else
    let s := sourceTypeLower st
    if s = "master" then
      [AgentName.strategy, AgentName.finance, AgentName.operations, AgentName.market,
       AgentName.risk, AgentName.compliance, AgentName.innovation, AgentName.green_hill]
    else if s = "shareholder" ∨ s = "investor" then
      [AgentName.strategy, AgentName.finance, AgentName.market, AgentName.risk, AgentName.green_hill]
    else if s = "supplier" ∨ s = "provider" then [AgentName.operations, AgentName.compliance]
    else if s = "public" then [AgentName.market, AgentName.strategy]
    else if s = "ocs_feed" then [AgentName.operations, AgentName.compliance]
    else if s = "web_source" then [AgentName.market, AgentName.risk]
    else []

/-- The fixed validation-error answer of `digital_twin` (`app/ghc_twin.py`
lines 76–78). -/
def missingQuestionMsg : String :=
  "Error: Missing \"question\". Send \x7b\"question\": \"...\"\x7d along with source_type."

/-- The empty-classification answer of `digital_twin` (`app/ghc_twin.py`
lines 96–98). -/
def noAgentsMsg : String :=
  "No suitable agents selected. Provide a clearer source_type or question."

/-- The retrieved-docs sequence `digital_twin` attaches to
`state.context["retrieved_docs"]` (`app/ghc_twin.py` lines 81–86):
`ctx.split("\n\n") if ctx else []` behind the availability check. -/
def retrievedOf (env : Env) (q : String) : List String :=
  if env.ds.available then
    let ctx := DocumentStore.query env.ds q 5
    if ctx.isEmpty then [] else pySplit ctx ("\n\n")
  else
    ["No vector store available"]

/-- `digital_twin` (`app/ghc_twin.py` lines 72–103): validate the question,
attach retrieved context, apply direct mode, classify, and set the first
hop. -/
def digital_twin (env : Env) (st : TwinState) : TwinState :=
  if (st.question.getD ("")).isEmpty then
    { st with finalize := true, final_answer := some missingQuestionMsg }
  else
    let q := st.question.getD ("")
    let st := { st with context_retrieved := some (retrievedOf env q) }
    let st :=
      match st.target_agent with
      | some t =>
          if st.target_agents.contains t then st
          else { st with target_agents := st.target_agents ++ [t] }
      | none => st
    let targets := if st.target_agents.isEmpty then classify_request st else st.target_agents
    let st := { st with target_agents := targets }
    if targets.isEmpty then
      { st with finalize := true, final_answer := some noAgentsMsg }
    else
      { st with next_agent := targets.head? }

/-- `intake_node` (`app/ghc_twin.py` lines 106–128). -/
def intake_node (st : TwinState) : TwinState :=
  let st := { st with history := st.history ++ [{ role := "System", content := "Intake processed" }] }
  let targets := st.target_agents
  let stype := sourceTypeLower st
  if (st.payload_ref.getD ("") != "") && (st.question.getD ("")).isEmpty then
    let t1 := if targets.contains AgentName.innovation then targets else targets ++ [AgentName.innovation]
    let t2 := if t1.contains AgentName.operations then t1 else t1 ++ [AgentName.operations]
    { st with target_agents := t2 }
  else if stype = "web_source" then
    { st with target_agents := if targets.isEmpty then [AgentName.market, AgentName.risk] else targets }
  else if stype = "ocs_feed" then
    { st with target_agents := if targets.isEmpty then [AgentName.operations, AgentName.compliance] else targets }
  else
    { st with target_agents := targets }

/-- Result of the `router` conditional edge (`app/ghc_twin.py` lines
131–154): a named graph node, the finalize node, or `END`. -/
inductive Route where
  | node (n : NodeName)
  | finalizeStep
  | terminate
deriving DecidableEq, Repr

/-- The agent-identifier → node-name dict `m` of `router`. -/
def routerTable : List (AgentName × NodeName) :=
  [ (AgentName.strategy, NodeName.strategy)
  , (AgentName.finance, NodeName.finance)
  , (AgentName.operations, NodeName.operations)
  , (AgentName.market, NodeName.market)
  , (AgentName.market_intel, NodeName.market)
  , (AgentName.risk, NodeName.risk)
  , (AgentName.compliance, NodeName.compliance)
  , (AgentName.innovation, NodeName.innovation)
  , (AgentName.media, NodeName.media)
  , (AgentName.qms, NodeName.qms)
  , (AgentName.governance, NodeName.governance)
  , (AgentName.aemps, NodeName.aemps)
  , (AgentName.green_hill, NodeName.green_hill) ]

/-- `router` (`app/ghc_twin.py` lines 131–154): finalize flag wins, an
unset `next_agent` goes to the finalize node, otherwise the dict lookup
with `END` as the defensive default. -/
def router (st : TwinState) : Route :=
  if st.finalize then Route.terminate
  else
    match st.next_agent with
    | none => Route.finalizeStep
    | some a =>
        match List.lookup a routerTable with
        | some n => Route.node n
        | none => Route.terminate

/-- Total version of the router dict (the dict of the source covers every
agent identifier). -/
def nodeOf : AgentName → NodeName
  | AgentName.strategy => NodeName.strategy
  | AgentName.finance => NodeName.finance
  | AgentName.operations => NodeName.operations
  | AgentName.market => NodeName.market
  | AgentName.market_intel => NodeName.market
  | AgentName.risk => NodeName.risk
  | AgentName.compliance => NodeName.compliance
  | AgentName.innovation => NodeName.innovation
  | AgentName.media => NodeName.media
  | AgentName.qms => NodeName.qms
  | AgentName.governance => NodeName.governance
  | AgentName.aemps => NodeName.aemps
  | AgentName.green_hill => NodeName.green_hill

/-- The agent identity each node records via `record_output`
(`AgentName.MARKET` for the shared `market` node). -/
def currentOf : NodeName → AgentName
  | NodeName.strategy => AgentName.strategy
  | NodeName.finance => AgentName.finance
  | NodeName.operations => AgentName.operations
  | NodeName.market => AgentName.market
  | NodeName.risk => AgentName.risk
  | NodeName.compliance => AgentName.compliance
  | NodeName.innovation => AgentName.innovation
  | NodeName.media => AgentName.media
  | NodeName.qms => AgentName.qms
  | NodeName.governance => AgentName.governance
  | NodeName.aemps => AgentName.aemps
  | NodeName.green_hill => AgentName.green_hill

/-- Dispatch a graph node to its node function (`build_graph`). -/
def runNode (env : Env) : NodeName → TwinState → TwinState
  | NodeName.strategy => strategy_node env
  | NodeName.finance => finance_node env
  | NodeName.operations => operations_node env
  | NodeName.market => market_intel_node env
  | NodeName.risk => risk_node env
  | NodeName.compliance => compliance_node env
  | NodeName.innovation => innovation_node env
  | NodeName.media => media_node env
  | NodeName.qms => qms_node env
  | NodeName.governance => governance_node env
  | NodeName.aemps => aemps_node env
  | NodeName.green_hill => green_hill_node env

/-- Result of driving the conditional-edge loop: the terminal state, the
trace of agent-node invocations (each paired with the `next_agent` it set),
and whether the dedicated finalize node ran. -/
structure RunResult where
  state : TwinState
  trace : List (NodeName × Option AgentName)
  finalizeRan : Bool
deriving DecidableEq, Repr

/-- The conditional-edge loop of `build_graph`: apply `router`, dispatch
the chosen node, repeat.  The finalize node has no outgoing conditional
edge in `build_graph`, so reaching it ends the run; `fuel` bounds the
number of router applications (`none` = not terminated within `fuel`). -/
def loop (env : Env) : Nat → TwinState → Option RunResult
  | 0, _ => none
  | Nat.succ fuel, st =>
      match router st with
      | Route.terminate => some { state := st, trace := [], finalizeRan := false }
      | Route.finalizeStep =>
          some { state := finalize_node env st, trace := [], finalizeRan := true }
      | Route.node n =>
          let st := runNode env n st
          match loop env fuel st with
          | none => none
          | some r => some { r with trace := (n, st.next_agent) :: r.trace }

/-- One full request: `START → intake → digital_twin → (router loop)`. -/
def fullRun (env : Env) (fuel : Nat) (st : TwinState) : Option RunResult :=
  loop env fuel (digital_twin env (intake_node st))

/-- Number of `"Final synthesis completed"` entries in a history (the note
appended exactly by `finalize_node`). -/
def countFinal (h : List Message) : Nat :=
  (h.filter (fun m => m.content == "Final synthesis completed")).length

/-- The invocation trace the chain-termination property predicts for a
target list: each entry's node in order, paired with the following entry
(`none` for the last). -/
def expectedTrace (targets : List AgentName) : List (NodeName × Option AgentName) :=
  (targets.map nodeOf).zip (((targets.drop 1).map Option.some) ++ [none])

/-- A concrete collaborator environment: vector store not loaded, both LLM
call sites failing (deterministic fallbacks), side effects succeeding. -/
def envC : Env :=
  { ds := { available := false, search := fun _ _ => Except.ok [] }
    llm := fun _ _ => Except.error "offline"
    ghLlm := fun _ => Except.error "offline"
    audit := Except.ok ()
    archive := Except.ok () }

/-- Environment whose index is available but returns zero documents. -/
def envAvailEmpty : Env :=
  { envC with ds := { available := true, search := fun _ _ => Except.ok [] } }

/-- Environment whose index is available and returns two documents. -/
def envAvailDocs : Env :=
  { envC with ds := { available := true, search := fun _ _ => Except.ok ["doc one", "doc two"] } }

/-- Environment whose index is available but whose search call raises. -/
def envSearchFail : Env :=
  { envC with ds := { available := true, search := fun _ _ => Except.error "boom" } }

/-- Environment whose audit-log and archive collaborators raise on write. -/
def envSideFail : Env :=
  { envC with audit := Except.error "disk full", archive := Except.error "backend down" }

/-- Direct-mode request with two caller-supplied targets. -/
def stTwo : TwinState :=
  { question := some "q", target_agents := [AgentName.strategy, AgentName.finance] }

/-- Direct-mode request with a duplicated target entry. -/
def stDup : TwinState :=
  { question := some "q", target_agents := [AgentName.strategy, AgentName.strategy] }

/-- Direct-mode request listing the synthesis agent before another agent. -/
def stGhFirst : TwinState :=
  { question := some "q", target_agents := [AgentName.green_hill, AgentName.strategy] }

/-- Direct-mode request ending with the synthesis agent. -/
def stGhLast : TwinState :=
  { question := some "q", target_agents := [AgentName.strategy, AgentName.green_hill] }

/-- Direct-mode request with a non-empty list plus a single explicit target. -/
def stDirect : TwinState :=
  { question := some "q", target_agents := [AgentName.strategy],
    target_agent := some AgentName.finance }

/-- A request with no question. -/
def stNoQ : TwinState := { source_type := "public" }

/-- A public request. -/
def stPub : TwinState := { question := some "q", source_type := "public" }

/-- A master request. -/
def stMaster : TwinState := { question := some "q", source_type := "master" }

/-- A state with an alias identifier in the middle of the target list. -/
def stAlias : TwinState :=
  { target_agents := [AgentName.strategy, AgentName.market_intel, AgentName.finance] }

/-- The empty (fresh) state. -/
def st0 : TwinState := {}

/-- A state in which every per-agent output record is populated, with
distinguishable `context_used` values. -/
def stFull : TwinState :=
  { question := some "q"
    strategy_output := some
      { strategic_focus := "sf", timeline := "tl", key_initiatives := [], analysis := "a", context_used := 1 }
    operations_output := some
      { implementation_schedule := "is", resource_allocation := "ra", operational_framework := "of",
        analysis := "a", context_used := 2 }
    finance_output := some
      { roi_projection := "24%", capex_estimate := 42, funding_strategy := "fs", analysis := "a",
        context_used := 3 }
    market_output := some
      { market_opportunity := "mo", growth_projection := "gp", competitive_landscape := "cl",
        analysis := "a", context_used := 4 }
    risk_output := some
      { risk_assessment := "med", primary_risks := ["r1"], mitigations := ["m1"], analysis := "a",
        context_used := 5 }
    compliance_output := some
      { regulatory_framework := "rf", timeline := "ct", actions := ["a1"], analysis := "a",
        context_used := 6 }
    innovation_output := some
      { innovation_roadmap := "ir", initiatives := ["i1", "i2"], analysis := "a", context_used := 7 }
    media_output := some { asset_pipeline := "ap", analysis := "a", context_used := 8 }
    qms_output := some { audit_focus := "af", analysis := "a", context_used := 9 }
    governance_output := some { policy_considerations := "pc", analysis := "a", context_used := 10 }
    aemps_output := some { readiness_level := "rl", analysis := "a", context_used := 11 } }

theorem normalizeAgent_idem (a : AgentName) :
    normalizeAgent (normalizeAgent a) = normalizeAgent a := by
  cases a <;> rfl

theorem map_normalize_idem (l : List AgentName) :
    (l.map normalizeAgent).map normalizeAgent = l.map normalizeAgent := by
  rw [List.map_map]
  congr 1
  funext a
  cases a <;> rfl

theorem lookup_routerTable (a : AgentName) :
    List.lookup a routerTable = some (nodeOf a) := by
  cases a <;> rfl

theorem nodeOf_normalize (a : AgentName) : nodeOf (normalizeAgent a) = nodeOf a := by
  cases a <;> rfl

theorem normalize_currentOf_nodeOf (a : AgentName) :
    normalizeAgent (currentOf (nodeOf a)) = normalizeAgent a := by
  cases a <;> rfl

theorem router_terminate {st : TwinState} (h : st.finalize = true) :
    router st = Route.terminate := by
  simp [router, h]

theorem router_finalizeStep {st : TwinState} (h1 : st.finalize = false)
    (h2 : st.next_agent = none) : router st = Route.finalizeStep := by
  simp [router, h1, h2]

theorem router_node {st : TwinState} {a : AgentName} (h1 : st.finalize = false)
    (h2 : st.next_agent = some a) : router st = Route.node (nodeOf a) := by
  simp [router, h1, h2, lookup_routerTable]

theorem countFinal_append_one (h : List Message) (m : Message) :
    countFinal (h ++ [m]) =
      countFinal h + (if m.content == "Final synthesis completed" then 1 else 0) := by
  simp only [countFinal, List.filter_append, List.length_append]
  congr 1
  by_cases hm : (m.content == "Final synthesis completed") = true
  · simp [List.filter, hm]
  · simp [List.filter, Bool.of_not_eq_true hm]

theorem nextFromTargets_congr {st1 st2 : TwinState} (c : AgentName)
    (h : st1.target_agents = st2.target_agents) :
    nextFromTargets st1 c = nextFromTargets st2 c := by
  simp only [nextFromTargets, h]

theorem nextFromTargets_eq_getElem? (st : TwinState) (cur : AgentName) :
    nextFromTargets st cur =
      st.target_agents[((st.target_agents.map normalizeAgent).indexOf (normalizeAgent cur)) + 1]? := by
  unfold nextFromTargets
  by_cases hemp : st.target_agents = []
  · simp [hemp]
  · have hemp2 : st.target_agents.isEmpty = false := by
      simpa [List.isEmpty_iff] using hemp
    rw [hemp2]
    by_cases hmem : normalizeAgent cur ∈ st.target_agents.map normalizeAgent
    · have hc : (st.target_agents.map normalizeAgent).contains (normalizeAgent cur) = true := by
        simpa [List.contains] using hmem
      simp only [Bool.false_eq_true, if_false, hc, if_true]
      split
      · rfl
      · next hlt =>
        exact (List.getElem?_eq_none (Nat.le_of_not_lt hlt)).symm
    · have hc : (st.target_agents.map normalizeAgent).contains (normalizeAgent cur) = false := by
        simpa [List.contains] using hmem
      have hidx : (st.target_agents.map normalizeAgent).indexOf (normalizeAgent cur)
          = (st.target_agents.map normalizeAgent).length := List.indexOf_eq_length.mpr hmem
      simp only [Bool.false_eq_true, if_false, hc]
      rw [List.getElem?_eq_none]
      rw [hidx, List.length_map]
      exact Nat.le_succ _

theorem runNode_target_agents (env : Env) (n : NodeName) (st : TwinState) :
    (runNode env n st).target_agents = st.target_agents := by
  cases n <;> first
    | rfl
    | (simp only [runNode, green_hill_node]; split <;> rfl)

theorem runNode_finalize (env : Env) (n : NodeName) (st : TwinState)
    (h : n ≠ NodeName.green_hill) : (runNode env n st).finalize = st.finalize := by
  cases n <;> first | rfl | exact absurd rfl h

theorem runNode_next (env : Env) (n : NodeName) (st : TwinState)
    (h : n ≠ NodeName.green_hill) :
    (runNode env n st).next_agent = nextFromTargets st (currentOf n) := by
  cases n <;> first | exact nextFromTargets_congr _ rfl | exact absurd rfl h

theorem runNode_history (env : Env) (n : NodeName) (st : TwinState) :
    ∃ m, (runNode env n st).history = st.history ++ [m] ∧
      (m.content == "Final synthesis completed") = false := by
  cases n <;> first
    | exact ⟨_, rfl, rfl⟩
    | (refine ⟨{ role := "GreenHillGPT", content := "Investor memo prepared" }, ?_, rfl⟩
       simp only [runNode, green_hill_node]
       split <;> rfl)

theorem runNode_countFinal (env : Env) (n : NodeName) (st : TwinState) :
    countFinal (runNode env n st).history = countFinal st.history := by
  obtain ⟨m, hm, hne⟩ := runNode_history env n st
  rw [hm, countFinal_append_one, hne]
  simp

theorem green_hill_next (env : Env) (st : TwinState) :
    (green_hill_node env st).next_agent = none := by
  simp only [green_hill_node]
  split <;> rfl

theorem green_hill_finalize (env : Env) (st : TwinState) :
    (green_hill_node env st).finalize = true := by
  simp only [green_hill_node]

theorem finalize_node_finalize (env : Env) (st : TwinState) :
    (finalize_node env st).finalize = true := rfl

theorem finalize_node_answer (env : Env) (st : TwinState) :
    (finalize_node env st).final_answer = some (ghAnswer st) := rfl

theorem finalize_node_history (env : Env) (st : TwinState) :
    (finalize_node env st).history
      = st.history ++ [{ role := "System", content := "Final synthesis completed" }] := rfl

theorem finalize_node_countFinal (env : Env) (st : TwinState) :
    countFinal (finalize_node env st).history = countFinal st.history + 1 := by
  rw [finalize_node_history, countFinal_append_one]
  rfl

theorem intake_node_eq (st : TwinState) :
    intake_node st = { st with
      history := st.history ++ [{ role := "System", content := "Intake processed" }],
      target_agents := (intake_node st).target_agents } := by
  simp only [intake_node]
  split
  · rfl
  · split
    · rfl
    · split <;> rfl

theorem intake_preserve_targets (st : TwinState)
    (hq : (st.question.getD ("")).isEmpty = false) (hts : st.target_agents ≠ []) :
    (intake_node st).target_agents = st.target_agents := by
  have hts2 : st.target_agents.isEmpty = false := by
    simpa [List.isEmpty_iff] using hts
  simp only [intake_node, hq, Bool.and_false, Bool.false_eq_true, if_false, hts2]
  split <;> simp [hts2]

theorem intake_countFinal (st : TwinState) :
    countFinal (intake_node st).history = countFinal st.history := by
  rw [intake_node_eq, countFinal_append_one]
  rfl

theorem digital_twin_missing (env : Env) (st : TwinState)
    (hq : (st.question.getD ("")).isEmpty = true) :
    digital_twin env st
      = { st with finalize := true, final_answer := some missingQuestionMsg } := by
  simp only [digital_twin, hq, if_true]

theorem digital_twin_direct (env : Env) (st : TwinState)
    (hq : (st.question.getD ("")).isEmpty = false)
    (hta : st.target_agent = none) (hts : st.target_agents ≠ []) :
    digital_twin env st = { st with
      context_retrieved := some (retrievedOf env (st.question.getD (""))),
      next_agent := st.target_agents.head? } := by
  have hts2 : st.target_agents.isEmpty = false := by
    simpa [List.isEmpty_iff] using hts
  simp only [digital_twin, hq, Bool.false_eq_true, if_false, hta, hts2]

theorem next_at_position (st : TwinState) (pre rest : List AgentName) (a : AgentName)
    (hta : st.target_agents = pre ++ a :: rest)
    (hnd : (st.target_agents.map normalizeAgent).Nodup) (cur : AgentName)
    (hcur : normalizeAgent cur = normalizeAgent a) :
    nextFromTargets st cur = rest.head? := by
  rw [nextFromTargets_eq_getElem?, hcur, hta]
  rw [hta] at hnd
  rw [List.map_append, List.map_cons] at hnd ⊢
  have hnotmem : normalizeAgent a ∉ pre.map normalizeAgent := by
    intro hmem
    exact (List.nodup_append.mp hnd).2.2 hmem (List.mem_cons_self _ _)
  rw [List.indexOf_append_of_not_mem hnotmem, List.indexOf_cons_self, List.length_map]
  rw [List.getElem?_append_right (by omega)]
  simp only [Nat.add_zero, Nat.add_sub_cancel_left]
  cases rest <;> simp

theorem last_split_of_not_mem_dropLast {x : AgentName} {l pre suf : List AgentName}
    (h : x ∉ l.dropLast) (hsplit : l = pre ++ x :: suf) : suf = [] := by
  cases suf with
  | nil => rfl
  | cons b t =>
      exfalso
      apply h
      rw [hsplit, List.dropLast_append_of_ne_nil _ (by simp), List.dropLast_cons₂]
      exact List.mem_append_right _ (List.mem_cons_self _ _)

theorem loop_chain (env : Env) (targets : List AgentName)
    (hnd : (targets.map normalizeAgent).Nodup)
    (hgh : AgentName.green_hill ∉ targets.dropLast) :
    ∀ (suf : List AgentName) (pre : List AgentName) (st : TwinState),
      targets = pre ++ suf → suf ≠ [] →
      st.target_agents = targets → st.next_agent = suf.head? → st.finalize = false →
      ∃ r, loop env (suf.length + 1) st = some r ∧
        r.trace = (suf.map nodeOf).zip (((suf.drop 1).map Option.some) ++ [none]) ∧
        r.state.finalize = true ∧
        r.finalizeRan = !(suf.getLast? == some AgentName.green_hill) ∧
        countFinal r.state.history
          = countFinal st.history + (if r.finalizeRan then 1 else 0) := by
  intro suf
  induction suf with
  | nil => intro pre st _ hne; exact absurd rfl hne
  | cons a rest ih =>
    intro pre st hsplit _ hta hna hfin
    have hna' : st.next_agent = some a := by rw [hna]; rfl
    have hroute : router st = Route.node (nodeOf a) := router_node hfin hna'
    have hstep : ∀ f, loop env (f + 1) st =
        match loop env f (runNode env (nodeOf a) st) with
        | none => none
        | some r => some { r with
            trace := (nodeOf a, (runNode env (nodeOf a) st).next_agent) :: r.trace } := by
      intro f
      simp only [loop, hroute]
    have hta' : (runNode env (nodeOf a) st).target_agents = targets := by
      rw [runNode_target_agents, hta]
    have hcount : countFinal (runNode env (nodeOf a) st).history = countFinal st.history :=
      runNode_countFinal env _ st
    by_cases hagh : a = AgentName.green_hill
    · -- the synthesis agent can only be the last entry; it finalizes in place
      have hrest : rest = [] := last_split_of_not_mem_dropLast hgh (by rw [hsplit, hagh])
      subst hrest
      subst hagh
      have h1 : (runNode env (nodeOf AgentName.green_hill) st).next_agent = none :=
        green_hill_next env st
      have h2 : (runNode env (nodeOf AgentName.green_hill) st).finalize = true :=
        green_hill_finalize env st
      refine ⟨{ state := runNode env (nodeOf AgentName.green_hill) st,
                trace := [(nodeOf AgentName.green_hill, none)], finalizeRan := false }, ?_,
              by simp, h2, by simp, by simpa using hcount⟩
      rw [show (AgentName.green_hill :: ([] : List AgentName)).length + 1 = 1 + 1 from rfl,
          hstep 1]
      simp only [loop]
      rw [router_terminate h2]
      simp [h1]
    · -- an analytical node: advances the cursor to the following entry
      have hnode : nodeOf a ≠ NodeName.green_hill := by
        cases a <;> simp [nodeOf]
        exact absurd rfl hagh
      have h1 : (runNode env (nodeOf a) st).finalize = false := by
        rw [runNode_finalize env _ st hnode, hfin]
      have h3 : (runNode env (nodeOf a) st).next_agent = rest.head? := by
        rw [runNode_next env _ st hnode]
        exact next_at_position st pre rest a (hta.trans hsplit)
          (by rw [hta]; exact hnd) _ (normalize_currentOf_nodeOf a)
      cases rest with
      | nil =>
          have h3n : (runNode env (nodeOf a) st).next_agent = none := h3
          refine ⟨{ state := finalize_node env (runNode env (nodeOf a) st),
                    trace := [(nodeOf a, none)], finalizeRan := true }, ?_,
                  by simp, finalize_node_finalize env _, by simp [hagh], ?_⟩
          · rw [show (a :: ([] : List AgentName)).length + 1 = 1 + 1 from rfl, hstep 1]
            simp only [loop]
            rw [router_finalizeStep h1 h3n]
            simp [h3n]
          · rw [finalize_node_countFinal, hcount]
            simp
      | cons b rest2 =>
          have h3b : (runNode env (nodeOf a) st).next_agent = (b :: rest2).head? := h3
          obtain ⟨r, hr1, hr2, hr3, hr4, hr5⟩ :=
            ih (pre ++ [a]) (runNode env (nodeOf a) st) (by rw [hsplit]; simp) (by simp)
              hta' h3b h1
          refine ⟨{ r with trace := (nodeOf a, some b) :: r.trace }, ?_, ?_, hr3, ?_, ?_⟩
          · rw [show (a :: b :: rest2).length + 1 = ((b :: rest2).length + 1) + 1 from rfl,
                hstep ((b :: rest2).length + 1), hr1]
            simp only [Option.some.injEq]
            congr 1
            rw [h3b]
            rfl
          · simp only [hr2]
            simp [List.zip_cons_cons]
          · simpa using hr4
          · simp only [hr5, hcount]

theorem fullRun_direct (env : Env) (st : TwinState) (targets : List AgentName)
    (hq : (st.question.getD ("")).isEmpty = false)
    (hta : st.target_agents = targets)
    (hne : targets ≠ [])
    (hsingle : st.target_agent = none)
    (hfin : st.finalize = false)
    (hnd : (targets.map normalizeAgent).Nodup)
    (hgh : AgentName.green_hill ∉ targets.dropLast) :
    ∃ r, fullRun env (targets.length + 1) st = some r ∧
      r.trace = expectedTrace targets ∧
      r.state.finalize = true ∧
      r.finalizeRan = !(targets.getLast? == some AgentName.green_hill) ∧
      countFinal r.state.history = countFinal st.history + (if r.finalizeRan then 1 else 0) := by
  have hts : st.target_agents ≠ [] := by rw [hta]; exact hne
  have hintake := intake_node_eq st
  have hpt : (intake_node st).target_agents = targets :=
    (intake_preserve_targets st hq hts).trans hta
  have hq1 : ((intake_node st).question.getD ("")).isEmpty = false := by
    rw [hintake]; simpa using hq
  have hsingle1 : (intake_node st).target_agent = none := by
    rw [hintake]; simpa using hsingle
  have hts1 : (intake_node st).target_agents ≠ [] := by rw [hpt]; exact hne
  have hdt := digital_twin_direct env (intake_node st) hq1 hsingle1 hts1
  have hta2 : (digital_twin env (intake_node st)).target_agents = targets := by
    rw [hdt]; simpa using hpt
  have hna2 : (digital_twin env (intake_node st)).next_agent = targets.head? := by
    rw [hdt]; simpa using congrArg List.head? hpt
  have hfin2 : (digital_twin env (intake_node st)).finalize = false := by
    rw [hdt, hintake]; simpa using hfin
  obtain ⟨r, hr1, hr2, hr3, hr4, hr5⟩ :=
    loop_chain env targets hnd hgh targets [] (digital_twin env (intake_node st))
      rfl hne hta2 hna2 hfin2
  have hhist : countFinal (digital_twin env (intake_node st)).history
      = countFinal st.history := by
    rw [hdt]
    show countFinal (intake_node st).history = countFinal st.history
    exact intake_countFinal st
  refine ⟨r, hr1, hr2, hr3, hr4, ?_⟩
  rw [hr5, hhist]

/-- Claim C8: the router returns terminate when the finalize flag is set,
the finalize step when `next_agent` is unset, and otherwise the node of the
fixed agent-identifier table lookup (with terminate as the default for an
identifier missing from the table). -/
theorem claim_C8 (st : TwinState) (a : AgentName) :
    (st.finalize = true → router st = Route.terminate) ∧
    (st.finalize = false → st.next_agent = none → router st = Route.finalizeStep) ∧
    (st.finalize = false → st.next_agent = some a →
      router st = (List.lookup a routerTable).elim Route.terminate Route.node) := by
  refine ⟨router_terminate, router_finalizeStep, ?_⟩
  intro h1 h2
  rw [router_node h1 h2, lookup_routerTable]
  rfl

theorem claim_C8_witness :
    router { st0 with finalize := true } = Route.terminate ∧
    router st0 = Route.finalizeStep ∧
    router { st0 with next_agent := some AgentName.strategy }
      = (List.lookup AgentName.strategy routerTable).elim Route.terminate Route.node :=
  ⟨(claim_C8 { st0 with finalize := true } AgentName.strategy).1 rfl,
   (claim_C8 st0 AgentName.strategy).2.1 rfl rfl,
   (claim_C8 { st0 with next_agent := some AgentName.strategy } AgentName.strategy).2.2 rfl rfl⟩

/-- Claim C9: the state record returned by `finalize_node` — in particular
`final_answer` and `finalize` — is the same under every behaviour of the
audit-log and archive collaborators (including raising on write), and the
node is total (failures never propagate). -/
theorem claim_C9 (env : Env) (audit2 archive2 : Except String Unit) (st : TwinState) :
    (finalize_nodeW { env with audit := audit2, archive := archive2 } st).1
      = (finalize_nodeW env st).1 ∧
    (finalize_nodeW { env with audit := audit2, archive := archive2 } st).1.finalize = true ∧
    (finalize_nodeW { env with audit := audit2, archive := archive2 } st).1.final_answer
      = some (ghAnswer st) :=
  ⟨rfl, rfl, rfl⟩

/-- Claim C7: replacing the legacy `market_intel` identifier by `market`
(as `next_agent` or throughout `target_agents`) routes identically: the
router dispatches both to the market node, the cursor advance agrees up to
alias normalization, and normalization does not change the dispatched node. -/
theorem claim_C7 (st : TwinState) (cur a : AgentName) :
    router { st with next_agent := some AgentName.market_intel }
      = router { st with next_agent := some AgentName.market } ∧
    nextFromTargets { st with target_agents := st.target_agents.map normalizeAgent } cur
      = (nextFromTargets st cur).map normalizeAgent ∧
    nodeOf (normalizeAgent a) = nodeOf a ∧
    nextFromTargets st AgentName.market_intel = nextFromTargets st AgentName.market := by
  refine ⟨?_, ?_, nodeOf_normalize a, rfl⟩
  · by_cases hf : st.finalize = true
    · rw [@router_terminate { st with next_agent := some AgentName.market_intel } hf,
          @router_terminate { st with next_agent := some AgentName.market } hf]
    · have hf2 : st.finalize = false := by simpa using hf
      rw [@router_node { st with next_agent := some AgentName.market_intel } _ hf2 rfl,
          @router_node { st with next_agent := some AgentName.market } _ hf2 rfl]
      rfl
  · rw [nextFromTargets_eq_getElem?, nextFromTargets_eq_getElem?]
    simp only [map_normalize_idem]
    simp [List.getElem?_map]

/-- Claim C3: with no domain fast-path hint and no caller-supplied targets,
the classifier returns the fixed two-agent list for `source_type "public"`
and the seven analytical agents plus the synthesis agent, in canonical
order, for `source_type "master"`. -/
theorem claim_C3 (st : TwinState)
    (hdom : st.metadata.domain = none)
    (hts : st.target_agents = []) :
    (st.source_type = "public" →
      classify_request st = [AgentName.market, AgentName.strategy]) ∧
    (st.source_type = "master" →
      classify_request st =
        [AgentName.strategy, AgentName.finance, AgentName.operations, AgentName.market,
         AgentName.risk, AgentName.compliance, AgentName.innovation, AgentName.green_hill]) := by
  have h1 : lowerStr ("") = "" := rfl
  have h2 : lowerStr ("public") = "public" := rfl
  have h3 : lowerStr ("master") = "master" := rfl
  have h4 : ("public" : String).isEmpty = false := rfl
  have h5 : ("master" : String).isEmpty = false := rfl
  constructor <;> intro hsrc <;>
    simp [classify_request, sourceTypeLower, hdom, hsrc, h1, h2, h3, h4, h5]

theorem claim_C3_witness :
    classify_request stPub = [AgentName.market, AgentName.strategy] ∧
    classify_request stMaster =
      [AgentName.strategy, AgentName.finance, AgentName.operations, AgentName.market,
       AgentName.risk, AgentName.compliance, AgentName.innovation, AgentName.green_hill] :=
  ⟨(claim_C3 stPub rfl rfl).1 rfl, (claim_C3 stMaster rfl rfl).2 rfl⟩

theorem intake_outputs (st : TwinState) :
    (intake_node st).strategy_output = st.strategy_output ∧
    (intake_node st).finance_output = st.finance_output ∧
    (intake_node st).operations_output = st.operations_output ∧
    (intake_node st).market_output = st.market_output ∧
    (intake_node st).risk_output = st.risk_output ∧
    (intake_node st).compliance_output = st.compliance_output ∧
    (intake_node st).innovation_output = st.innovation_output ∧
    (intake_node st).green_hill_response = st.green_hill_response := by
  rw [intake_node_eq]
  exact ⟨rfl, rfl, rfl, rfl, rfl, rfl, rfl, rfl⟩

/-- Claim C2: a request without a question terminates at the validation
path — `finalize = True`, the fixed missing-question `final_answer`, no
agent invocation, no finalize-node run, and every per-agent output field
left unset. -/
theorem claim_C2 (env : Env) (st : TwinState) (fuel : Nat)
    (hq : (st.question.getD ("")).isEmpty = true)
    (h1 : st.strategy_output = none) (h2 : st.finance_output = none)
    (h3 : st.operations_output = none) (h4 : st.market_output = none)
    (h5 : st.risk_output = none) (h6 : st.compliance_output = none)
    (h7 : st.innovation_output = none) (h8 : st.green_hill_response = none) :
    (fullRun env (fuel + 1) st).map (fun r => r.state.final_answer)
      = some (some missingQuestionMsg) ∧
    (fullRun env (fuel + 1) st).map (fun r => r.state.finalize) = some true ∧
    (fullRun env (fuel + 1) st).map RunResult.trace = some [] ∧
    (fullRun env (fuel + 1) st).map RunResult.finalizeRan = some false ∧
    (fullRun env (fuel + 1) st).map (fun r => r.state.strategy_output) = some none ∧
    (fullRun env (fuel + 1) st).map (fun r => r.state.finance_output) = some none ∧
    (fullRun env (fuel + 1) st).map (fun r => r.state.operations_output) = some none ∧
    (fullRun env (fuel + 1) st).map (fun r => r.state.market_output) = some none ∧
    (fullRun env (fuel + 1) st).map (fun r => r.state.risk_output) = some none ∧
    (fullRun env (fuel + 1) st).map (fun r => r.state.compliance_output) = some none ∧
    (fullRun env (fuel + 1) st).map (fun r => r.state.innovation_output) = some none ∧
    (fullRun env (fuel + 1) st).map (fun r => r.state.green_hill_response) = some none := by
  have hq1 : ((intake_node st).question.getD ("")).isEmpty = true := by
    rw [intake_node_eq]; simpa using hq
  have hdt := digital_twin_missing env (intake_node st) hq1
  have hfin : (digital_twin env (intake_node st)).finalize = true := by rw [hdt]
  have hrun : fullRun env (fuel + 1) st
      = some { state := digital_twin env (intake_node st), trace := [], finalizeRan := false } := by
    show loop env (fuel + 1) (digital_twin env (intake_node st)) = _
    simp only [loop]
    rw [router_terminate hfin]
  have hout := intake_outputs st
  refine ⟨?_, ?_, ?_, ?_, ?_, ?_, ?_, ?_, ?_, ?_, ?_, ?_⟩ <;>
    rw [hrun] <;> simp only [Option.map_some'] <;> rw [hdt] <;>
    simp only [hout.1, hout.2.1, hout.2.2.1, hout.2.2.2.1, hout.2.2.2.2.1,
      hout.2.2.2.2.2.1, hout.2.2.2.2.2.2.1, hout.2.2.2.2.2.2.2,
      h1, h2, h3, h4, h5, h6, h7, h8]

theorem claim_C2_witness :
    (fullRun envC (0 + 1) stNoQ).map (fun r => r.state.final_answer)
      = some (some missingQuestionMsg) ∧
    (fullRun envC (0 + 1) stNoQ).map (fun r => r.state.finalize) = some true ∧
    (fullRun envC (0 + 1) stNoQ).map RunResult.trace = some [] ∧
    (fullRun envC (0 + 1) stNoQ).map (fun r => r.state.strategy_output) = some none :=
  have h := claim_C2 envC stNoQ 0 rfl rfl rfl rfl rfl rfl rfl rfl rfl
  ⟨h.1, h.2.1, h.2.2.1, h.2.2.2.2.1⟩

theorem isEmpty_append_left_false (s t : String) (hs : s.isEmpty = false) :
    (s ++ t).isEmpty = false := by
  rw [Bool.eq_false_iff] at hs ⊢
  intro h
  apply hs
  have h2 : s ++ t = "" := (String.isEmpty_iff _).mp h
  have h3 : s.data ++ t.data = [] := by
    rw [← String.data_append]
    rw [h2]
  rw [String.isEmpty_iff]
  apply String.ext
  simpa using (List.append_eq_nil.mp h3).1

theorem digital_twin_context (env : Env) (st : TwinState)
    (hq : (st.question.getD ("")).isEmpty = false) :
    (digital_twin env st).context_retrieved
      = some (retrievedOf env (st.question.getD (""))) := by
  simp only [digital_twin, hq, Bool.false_eq_true, if_false]
  cases hta : st.target_agent <;>
    simp [hta, apply_ite TwinState.context_retrieved]

/-- Claim C6 (amended): `DocumentStore.query` is total and, for a question-
bearing request, the retrieved-docs context attached by `digital_twin` is
the fixed single-element placeholder when the index is unavailable, the
failure message split on blank-line separators when the search raises, and
the joined snippets split on blank-line separators when the search
succeeds — which is the empty sequence exactly when the joined string is
empty (e.g. zero documents). -/
theorem claim_C6 (env : Env) (st : TwinState) (e : String) (docs : List String)
    (hq : (st.question.getD ("")).isEmpty = false) :
    (env.ds.available = false →
      (digital_twin env st).context_retrieved = some ["No vector store available"]) ∧
    (env.ds.available = true → env.ds.search (st.question.getD ("")) 5 = Except.error e →
      (digital_twin env st).context_retrieved
        = some (pySplit ("Vector store query failed: " ++ e) ("\n\n"))) ∧
    (env.ds.available = true → env.ds.search (st.question.getD ("")) 5 = Except.ok docs →
      (digital_twin env st).context_retrieved
        = some (if (String.intercalate ("\n\n") docs).isEmpty then []
                else pySplit (String.intercalate ("\n\n") docs) ("\n\n"))) := by
  have hctx := digital_twin_context env st hq
  refine ⟨?_, ?_, ?_⟩
  · intro hav
    rw [hctx]
    simp [retrievedOf, hav]
  · intro hav hsearch
    rw [hctx]
    have hne : ("Vector store query failed: " ++ e).isEmpty = false :=
      isEmpty_append_left_false _ _ rfl
    simp only [retrievedOf, hav, if_true, DocumentStore.query, Bool.not_true,
      Bool.false_eq_true, if_false, hsearch, hne]
  · intro hav hsearch
    rw [hctx]
    simp only [retrievedOf, hav, if_true, DocumentStore.query, Bool.not_true,
      Bool.false_eq_true, if_false, hsearch]

theorem claim_C6_cex :
    envAvailEmpty.ds.available = true ∧
    (digital_twin envAvailEmpty stPub).context_retrieved = some [] :=
  ⟨rfl, rfl⟩

theorem claim_C6_witness :
    (digital_twin envC stPub).context_retrieved = some ["No vector store available"] ∧
    (digital_twin envSearchFail stPub).context_retrieved
      = some ["Vector store query failed: boom"] ∧
    (digital_twin envAvailDocs stPub).context_retrieved = some ["doc one", "doc two"] := by
  refine ⟨(claim_C6 envC stPub ("x") [] rfl).1 rfl, ?_, ?_⟩
  · have h := (claim_C6 envSearchFail stPub ("boom") [] rfl).2.1 rfl rfl
    rw [h]
    rfl
  · have h := (claim_C6 envAvailDocs stPub ("x") ["doc one", "doc two"] rfl).2.2 rfl rfl
    rw [h]
    rfl

/-- Claim C5 (amended): a caller-supplied non-empty target list is used
verbatim instead of classification, and a single explicit `target_agent`
not already contained in the list is appended to its end (so it runs last;
it runs first only when the list was empty). -/
theorem claim_C5 (env : Env) (st : TwinState) (t : AgentName)
    (hq : (st.question.getD ("")).isEmpty = false)
    (hts : st.target_agents ≠ []) :
    ((digital_twin env st).target_agents
        = st.target_agents ++
          (match st.target_agent with
           | some u => if st.target_agents.contains u then [] else [u]
           | none => [])) ∧
    (digital_twin env st).next_agent = (digital_twin env st).target_agents.head? ∧
    (st.target_agent = some t → st.target_agents.contains t = false →
      (digital_twin env st).target_agents = st.target_agents ++ [t]) := by
  have hts2 : st.target_agents.isEmpty = false := by
    simpa [List.isEmpty_iff] using hts
  have hmain : ∀ u, st.target_agent = some u →
      (digital_twin env st).target_agents
        = st.target_agents ++ (if st.target_agents.contains u then [] else [u]) := by
    intro u hu
    by_cases hm : u ∈ st.target_agents
    · simp [digital_twin, hq, hu, hm, hts2]
    · have happ : (st.target_agents ++ [u]).isEmpty = false := by
        cases h : st.target_agents <;> simp
      simp [digital_twin, hq, hu, hm, hts2, happ]
  refine ⟨?_, ?_, ?_⟩
  · cases hu : st.target_agent with
    | none => simp [digital_twin, hq, hu, hts2]
    | some u => simpa using hmain u hu
  · cases hu : st.target_agent with
    | none => simp [digital_twin, hq, hu, hts2]
    | some u =>
        by_cases hm : u ∈ st.target_agents
        · simp [digital_twin, hq, hu, hm, hts2]
        · have happ : (st.target_agents ++ [u]).isEmpty = false := by
            cases h : st.target_agents <;> simp
          simp [digital_twin, hq, hu, hm, hts2, happ]
  · intro hu hc
    have hm : ¬ (t ∈ st.target_agents) := by
      simpa using hc
    rw [hmain t hu]
    simp [hm]

theorem claim_C5_cex :
    stDirect.target_agents = [AgentName.strategy] ∧
    stDirect.target_agent = some AgentName.finance ∧
    (digital_twin envC stDirect).target_agents = [AgentName.strategy, AgentName.finance] ∧
    [AgentName.strategy, AgentName.finance] ≠ [AgentName.finance, AgentName.strategy] :=
  ⟨rfl, rfl, rfl, by decide⟩

theorem claim_C5_witness :
    (digital_twin envC stDirect).target_agents = stDirect.target_agents ++ [AgentName.finance] ∧
    (digital_twin envC stDirect).next_agent
      = (digital_twin envC stDirect).target_agents.head? :=
  have h := claim_C5 envC stDirect AgentName.finance rfl (by decide)
  ⟨h.2.2 rfl rfl, h.2.1⟩

/-- Claim C4 (amended): `finalize_node` always sets `final_answer` (to the
fixed composite built from the summary block) and `finalize = True`; the
summary block has one fixed-format line per agent — for a populated output
record the line embeds that record's `context_used` value, and for an
absent record a default line (`0 ctx` / `N/A` fields) still appears. -/
theorem claim_C4 (env : Env) (st : TwinState)
    (s : StrategyOutput) (f : FinanceOutput) (op : OperationsOutput) (mk : MarketOutput)
    (rk : RiskOutput) (cp : ComplianceOutput) (iv : InnovationOutput) (me : MediaOutput)
    (qm : QmsOutput) (gv : GovernanceOutput) (ae : AempsOutput) :
    (finalize_nodeW env st).1.finalize = true ∧
    (finalize_nodeW env st).1.final_answer = some (ghAnswer st) ∧
    ghAnswer st
      = (if (st.question.getD ("")).isEmpty then
           "# Green Hill Canarias Digital Twin\n\nQuestion: " ++ "(no question)"
             ++ "\n\nSummary:\n- " ++ String.intercalate ("\n- ") (ghParts st)
         else
           "# Green Hill Canarias Digital Twin\n\nQuestion: " ++ st.question.getD ("")
             ++ "\n\nSummary:\n- " ++ String.intercalate ("\n- ") (ghParts st)) ∧
    (ghParts st).length = 11 ∧
    (st.strategy_output = some s → (ghParts st)[0]? = some
      ("🎯 Strategy (" ++ toString s.context_used ++ " ctx): "
        ++ s.strategic_focus ++ " | " ++ s.timeline)) ∧
    (st.finance_output = some f → (ghParts st)[1]? = some
      ("💰 Finance (" ++ toString f.context_used ++ " ctx): ROI "
        ++ f.roi_projection ++ " | CAPEX " ++ toString f.capex_estimate)) ∧
    (st.operations_output = some op → (ghParts st)[2]? = some
      ("⚙️ Operations (" ++ toString op.context_used ++ " ctx): "
        ++ op.implementation_schedule)) ∧
    (st.market_output = some mk → (ghParts st)[3]? = some
      ("📊 Market (" ++ toString mk.context_used ++ " ctx): "
        ++ mk.growth_projection ++ " | " ++ mk.market_opportunity)) ∧
    (st.risk_output = some rk → (ghParts st)[4]? = some
      ("⚠️ Risk (" ++ toString rk.context_used ++ " ctx): " ++ rk.risk_assessment)) ∧
    (st.compliance_output = some cp → (ghParts st)[5]? = some
      ("📋 Compliance (" ++ toString cp.context_used ++ " ctx): "
        ++ cp.timeline ++ " | " ++ cp.regulatory_framework)) ∧
    (st.innovation_output = some iv → (ghParts st)[6]? = some
      ("💡 Innovation (" ++ toString iv.context_used ++ " ctx): roadmap with "
        ++ toString iv.initiatives.length ++ " initiatives")) ∧
    (st.media_output = some me → (ghParts st)[7]? = some
      ("🎥 Media (" ++ toString me.context_used ++ " ctx): " ++ me.asset_pipeline)) ∧
    (st.qms_output = some qm → (ghParts st)[8]? = some
      ("🧪 QMS (" ++ toString qm.context_used ++ " ctx): " ++ qm.audit_focus)) ∧
    (st.governance_output = some gv → (ghParts st)[9]? = some
      ("🧭 Governance (" ++ toString gv.context_used ++ " ctx): "
        ++ gv.policy_considerations)) ∧
    (st.aemps_output = some ae → (ghParts st)[10]? = some
      ("🏛️ AEMPS (" ++ toString ae.context_used ++ " ctx): " ++ ae.readiness_level)) ∧
    (st.strategy_output = none →
      (ghParts st)[0]? = some ("🎯 Strategy (0 ctx): N/A | ")) ∧
    (st.finance_output = none →
      (ghParts st)[1]? = some ("💰 Finance (0 ctx): ROI N/A | CAPEX N/A")) ∧
    (st.operations_output = none →
      (ghParts st)[2]? = some ("⚙️ Operations (0 ctx): N/A")) ∧
    (st.market_output = none →
      (ghParts st)[3]? = some ("📊 Market (0 ctx): N/A | N/A")) ∧
    (st.risk_output = none → (ghParts st)[4]? = some ("⚠️ Risk (0 ctx): N/A")) ∧
    (st.compliance_output = none →
      (ghParts st)[5]? = some ("📋 Compliance (0 ctx): N/A | N/A")) ∧
    (st.innovation_output = none →
      (ghParts st)[6]? = some ("💡 Innovation (0 ctx): roadmap with 0 initiatives")) ∧
    (st.media_output = none → (ghParts st)[7]? = some ("🎥 Media (0 ctx): N/A")) ∧
    (st.qms_output = none → (ghParts st)[8]? = some ("🧪 QMS (0 ctx): N/A")) ∧
    (st.governance_output = none →
      (ghParts st)[9]? = some ("🧭 Governance (0 ctx): N/A")) ∧
    (st.aemps_output = none →
      (ghParts st)[10]? = some ("🏛️ AEMPS (0 ctx): N/A")) := by
  refine ⟨rfl, rfl, ?_, rfl, ?_, ?_, ?_, ?_, ?_, ?_, ?_, ?_, ?_, ?_, ?_,
          ?_, ?_, ?_, ?_, ?_, ?_, ?_, ?_, ?_, ?_, ?_⟩
  · by_cases hq : (st.question.getD ("")).isEmpty = true <;> simp [ghAnswer, hq]
  all_goals intro h
  all_goals simp [ghParts, h]
  all_goals decide

set_option maxRecDepth 8000 in
theorem claim_C4_cex :
    st0.strategy_output = none ∧
    (ghParts st0)[0]? = some ("🎯 Strategy (0 ctx): N/A | ") ∧
    (finalize_nodeW envC st0).1.final_answer
      = some ("# Green Hill Canarias Digital Twin\n\nQuestion: (no question)\n\nSummary:\n- "
          ++ String.intercalate ("\n- ") (ghParts st0)) :=
  ⟨rfl, rfl, by decide⟩

theorem claim_C4_witness :
    (finalize_nodeW envC stFull).1.finalize = true ∧
    (ghParts stFull)[0]? = some ("🎯 Strategy (1 ctx): sf | tl") ∧
    (ghParts stFull)[6]? = some ("💡 Innovation (7 ctx): roadmap with 2 initiatives") := by
  have h := claim_C4 envC stFull
    { strategic_focus := "sf", timeline := "tl", key_initiatives := [], analysis := "a",
      context_used := 1 }
    { roi_projection := "24%", capex_estimate := 42, funding_strategy := "fs", analysis := "a",
      context_used := 3 }
    { implementation_schedule := "is", resource_allocation := "ra", operational_framework := "of",
      analysis := "a", context_used := 2 }
    { market_opportunity := "mo", growth_projection := "gp", competitive_landscape := "cl",
      analysis := "a", context_used := 4 }
    { risk_assessment := "med", primary_risks := ["r1"], mitigations := ["m1"], analysis := "a",
      context_used := 5 }
    { regulatory_framework := "rf", timeline := "ct", actions := ["a1"], analysis := "a",
      context_used := 6 }
    { innovation_roadmap := "ir", initiatives := ["i1", "i2"], analysis := "a", context_used := 7 }
    { asset_pipeline := "ap", analysis := "a", context_used := 8 }
    { audit_focus := "af", analysis := "a", context_used := 9 }
    { policy_considerations := "pc", analysis := "a", context_used := 10 }
    { readiness_level := "rl", analysis := "a", context_used := 11 }
  refine ⟨h.1, ?_, ?_⟩
  · rw [h.2.2.2.2.1 rfl]
    decide
  · rw [h.2.2.2.2.2.2.2.2.2.2.1 rfl]
    decide

/-- Claim C1 (amended): for a run whose non-empty caller-supplied target
list has pairwise-distinct entries after alias normalization and contains
the synthesis agent only as its last entry (if at all), exactly N agent
invocations occur before the run finalizes; invocation i sets `next_agent`
to entry i+1 and the last sets it to `None`.  `_next_from_targets` returns
the entry after the first occurrence of the (normalized) current agent in
the target list, or `None` when it is last or absent. -/
theorem claim_C1 (env : Env) (st : TwinState) (targets : List AgentName)
    (st2 : TwinState) (cur : AgentName)
    (hq : (st.question.getD ("")).isEmpty = false)
    (hta : st.target_agents = targets)
    (hne : targets ≠ [])
    (hsingle : st.target_agent = none)
    (hfin : st.finalize = false)
    (hnd : (targets.map normalizeAgent).Nodup)
    (hgh : AgentName.green_hill ∉ targets.dropLast) :
    (fullRun env (targets.length + 1) st).map RunResult.trace
      = some (expectedTrace targets) ∧
    (fullRun env (targets.length + 1) st).map (fun r => r.trace.length)
      = some targets.length ∧
    (fullRun env (targets.length + 1) st).map (fun r => r.state.finalize) = some true ∧
    nextFromTargets st2 cur
      = st2.target_agents[((st2.target_agents.map normalizeAgent).indexOf
          (normalizeAgent cur)) + 1]? := by
  obtain ⟨r, hr1, hr2, hr3, _, _⟩ :=
    fullRun_direct env st targets hq hta hne hsingle hfin hnd hgh
  have hpos : 0 < targets.length := List.length_pos.mpr hne
  have hlen : (expectedTrace targets).length = targets.length := by
    simp [expectedTrace, Nat.sub_add_cancel hpos]
  refine ⟨?_, ?_, ?_, nextFromTargets_eq_getElem? st2 cur⟩ <;>
    rw [hr1] <;> simp only [Option.map_some']
  · rw [hr2]
  · rw [hr2, hlen]
  · rw [hr3]

theorem claim_C1_witness :
    (fullRun envC ([AgentName.strategy, AgentName.finance].length + 1) stTwo).map
        RunResult.trace = some (expectedTrace [AgentName.strategy, AgentName.finance]) ∧
    (fullRun envC ([AgentName.strategy, AgentName.finance].length + 1) stTwo).map
        (fun r => r.state.finalize) = some true ∧
    nextFromTargets stAlias AgentName.market
      = stAlias.target_agents[((stAlias.target_agents.map normalizeAgent).indexOf
          (normalizeAgent AgentName.market)) + 1]? :=
  have h := claim_C1 envC stTwo [AgentName.strategy, AgentName.finance] stAlias
    AgentName.market rfl rfl (by decide) rfl rfl (by decide) (by decide)
  ⟨h.1, h.2.2.1, h.2.2.2⟩

theorem claim_C1_cex :
    stDup.target_agents.length = 2 ∧
    fullRun envC (2 + 1) stDup = none ∧
    fullRun envC (2 + 2) stDup = none ∧
    stGhFirst.target_agents.length = 2 ∧
    (fullRun envC (2 + 1) stGhFirst).map RunResult.trace
      = some [(NodeName.green_hill, none)] ∧
    (some [(NodeName.green_hill, (none : Option AgentName))]
      ≠ some (expectedTrace stGhFirst.target_agents)) := by
  exact ⟨rfl, rfl, rfl, rfl, rfl, by decide⟩

/-- Claim C10: `green_hill_node` itself sets `next_agent = None`,
`finalize = True`, and `final_answer` when not already set; hence a run
whose target list ends with the synthesis agent never executes the
dedicated finalize node and appends no "Final synthesis completed"
history entry. -/
theorem claim_C10 (env : Env) (st : TwinState) (env2 : Env) (st2 : TwinState)
    (targets : List AgentName)
    (hq : (st2.question.getD ("")).isEmpty = false)
    (hta : st2.target_agents = targets)
    (hne : targets ≠ [])
    (hsingle : st2.target_agent = none)
    (hfin : st2.finalize = false)
    (hnd : (targets.map normalizeAgent).Nodup)
    (hgh : AgentName.green_hill ∉ targets.dropLast)
    (hlast : targets.getLast? = some AgentName.green_hill) :
    (green_hill_node env st).next_agent = none ∧
    (green_hill_node env st).finalize = true ∧
    (green_hill_node env st).final_answer.isSome = true ∧
    ((st.final_answer.getD ("")).isEmpty = false →
      (green_hill_node env st).final_answer = st.final_answer) ∧
    (fullRun env2 (targets.length + 1) st2).map RunResult.finalizeRan = some false ∧
    (fullRun env2 (targets.length + 1) st2).map (fun r => countFinal r.state.history)
      = some (countFinal st2.history) ∧
    (fullRun env2 (targets.length + 1) st2).map (fun r => r.state.finalize) = some true := by
  obtain ⟨r, hr1, _, hr3, hr4, hr5⟩ :=
    fullRun_direct env2 st2 targets hq hta hne hsingle hfin hnd hgh
  have hran : r.finalizeRan = false := by
    rw [hr4, hlast]
    simp
  refine ⟨green_hill_next env st, green_hill_finalize env st, ?_, ?_, ?_, ?_, ?_⟩
  · simp only [green_hill_node]
    split
    · rfl
    · next hcond =>
        cases hfa : st.final_answer with
        | none => exfalso; apply hcond; rw [hfa]; rfl
        | some s => simp [hfa]
  · intro hset
    simp only [green_hill_node]
    split
    · next hcond =>
        exfalso
        simp only [hset] at hcond
        exact absurd hcond (by simp)
    · rfl
  · rw [hr1]
    simp only [Option.map_some']
    rw [hran]
  · rw [hr1]
    simp only [Option.map_some']
    rw [hr5, hran]
    simp
  · rw [hr1]
    simp only [Option.map_some']
    rw [hr3]

theorem claim_C10_witness :
    (green_hill_node envC st0).next_agent = none ∧
    (green_hill_node envC st0).finalize = true ∧
    (fullRun envC ([AgentName.strategy, AgentName.green_hill].length + 1) stGhLast).map
        RunResult.finalizeRan = some false ∧
    (fullRun envC ([AgentName.strategy, AgentName.green_hill].length + 1) stGhLast).map
        (fun r => countFinal r.state.history) = some (countFinal stGhLast.history) :=
  have h := claim_C10 envC st0 envC stGhLast [AgentName.strategy, AgentName.green_hill]
    rfl rfl (by decide) rfl rfl (by decide) (by decide) rfl
  ⟨h.1, h.2.1, h.2.2.2.2.1, h.2.2.2.2.2.1⟩
